import Mathlib

/-!
# Verification of the SMPP-to-chat bridge (src/main.go)

Shallow embedding of the decision logic of the bridge. Go byte strings are
modelled as `List Nat` (one entry per byte, each below 256); decoded Unicode
text is modelled as a `List Nat` of scalar values, converted back to Go
string form by `utf8Encode`. Fallible or effectful collaborators (the HTTP
transport, the SMPP session) are modelled by explicit outcome types.
-/

/-- Bytes of an ASCII string literal, used for the fixed pieces of the
relay line composed at main.go line 158. -/
def asciiBytes (s : String) : List Nat := s.data.map Char.toNat

/-- The two bytes of one UTF-16 code unit, little- or big-endian. -/
def unitBytes (le : Bool) (u : Nat) : List Nat :=
  if le then [u % 256, u / 256] else [u / 256, u % 256]

/-- UTF-16 encoding of a sequence of Unicode scalar values (the spec-side
encodeUTF16BE when `le = false`): scalars below 0x10000 become one code
unit, larger ones a surrogate pair. -/
def utf16Encode (le : Bool) : List Nat → List Nat
  | [] => []
  | c :: cs =>
    (if c < 0x10000 then unitBytes le c
     else unitBytes le (0xD800 + (c - 0x10000) / 0x400) ++
          unitBytes le (0xDC00 + (c - 0x10000) % 0x400)) ++ utf16Encode le cs

/-- Spec-side big-endian UTF-16 encoder. -/
def encodeUTF16BE (t : List Nat) : List Nat := utf16Encode false t

/-- Spec-side little-endian UTF-16 encoder. -/
def encodeUTF16LE (t : List Nat) : List Nat := utf16Encode true t

/-- Pair a byte stream into 16-bit code units; the Bool records a dangling
odd final byte (which the library decodes to U+FFFD). -/
def pairBytes (le : Bool) : List Nat → List Nat × Bool
  | b1 :: b2 :: rest =>
    let p := pairBytes le rest
    ((if le then b2 * 256 + b1 else b1 * 256 + b2) :: p.1, p.2)
  | [_] => ([], true)
  | [] => ([], false)

/-- Code units to scalar values, following the x/text utf16Decoder loop: a
high surrogate followed by a low surrogate combines into one scalar; any
unpaired surrogate becomes the replacement character U+FFFD. -/
def unitsDecode : List Nat → List Nat
  | [] => []
  | u :: us =>
    if 0xD800 ≤ u ∧ u < 0xDC00 then
      match us with
      | u2 :: us2 =>
        if 0xDC00 ≤ u2 ∧ u2 < 0xE000 then
          ((u - 0xD800) * 0x400 + (u2 - 0xDC00) + 0x10000) :: unitsDecode us2
        else
          0xFFFD :: unitsDecode (u2 :: us2)
      | [] => [0xFFFD]
    else if 0xDC00 ≤ u ∧ u < 0xE000 then
      0xFFFD :: unitsDecode us
    else
      u :: unitsDecode us

/-- UTF-8 bytes of one Unicode scalar value. -/
def utf8Bytes (c : Nat) : List Nat :=
  if c < 0x80 then [c]
  else if c < 0x800 then [0xC0 + c / 0x40, 0x80 + c % 0x40]
  else if c < 0x10000 then
    [0xE0 + c / 0x1000, 0x80 + c / 0x40 % 0x40, 0x80 + c % 0x40]
  else
    [0xF0 + c / 0x40000, 0x80 + c / 0x1000 % 0x40, 0x80 + c / 0x40 % 0x40,
     0x80 + c % 0x40]

/-- UTF-8 bytes of a scalar sequence: the Go string holding that text. -/
def utf8Encode : List Nat → List Nat
  | [] => []
  | c :: cs => utf8Bytes c ++ utf8Encode cs

/-- Scalar values produced by the UTF-16 decoder of the x/text library
(`unicode.UTF16(endianness, IgnoreBOM).NewDecoder()`): code units are read
two bytes at a time, a dangling final byte yields U+FFFD. -/
def utf16DecodeScalars (le : Bool) (b : List Nat) : List Nat :=
  unitsDecode (pairBytes le b).1 ++ (if (pairBytes le b).2 then [0xFFFD] else [])

/-- Embedding of `utf16bom := unicode.BOMOverride(win16be.NewDecoder())`
(main.go lines 122-124) as a byte-to-byte Go string transform. BOMOverride
checks the start of the input: a UTF-8 byte-order mark switches to a no-op
UTF-8 pass-through, a UTF-16 mark selects the endianness; all marks are
stripped. Without a mark the fallback big-endian UTF-16 decoder runs. -/
def utf16bom (b : List Nat) : List Nat :=
  if b.take 3 = [0xEF, 0xBB, 0xBF] then b.drop 3
  else if b.take 2 = [0xFE, 0xFF] then utf8Encode (utf16DecodeScalars false (b.drop 2))
  else if b.take 2 = [0xFF, 0xFE] then utf8Encode (utf16DecodeScalars true (b.drop 2))
  else utf8Encode (utf16DecodeScalars false b)

/-- The decode dispatch inside the handler f (main.go lines 147-154): data
coding whose string form is "8" selects the UTF-16 transform, anything
else is passed through unchanged. -/
def decode (coding : String) (txt : List Nat) : List Nat :=
  if coding = "8" then utf16bom txt else txt

/-- pdu.DeliverSMID of the go-smpp library. -/
def DeliverSMID : Nat := 0x00000005

/-- pdu.SubmitSMID of the go-smpp library (an example of another kind). -/
def SubmitSMID : Nat := 0x00000004

/-- Projection of a pdu.Body to the fields the handler f reads: the header
ID, the address and short-message fields, the message-payload TLV, and the
string form of the data-coding field (empty when absent). -/
structure PduBody where
  ID : Nat
  SourceAddr : List Nat
  DestinationAddr : List Nat
  ShortMessage : List Nat
  MessagePayload : List Nat
  DataCoding : String
deriving DecidableEq

/-- The text-source selection of f (main.go lines 144-146): the
short-message field, or the message-payload TLV when it is empty. -/
def textSource (p : PduBody) : List Nat :=
  if p.ShortMessage = [] then p.MessagePayload else p.ShortMessage

/-- The relay line composed at main.go line 158. -/
def relayLine (src dst text : List Nat) : List Nat :=
  asciiBytes "SMS from " ++ src ++ asciiBytes " to " ++ dst ++
    asciiBytes " :\n" ++ text

/-- The inbound handler f (main.go lines 126-160). Its only observable
output is the string handed to sendMessage; `none` means the message kind
was ignored (debug logging is diagnostic only and not modelled). -/
def f (p : PduBody) : Option (List Nat) :=
  if p.ID = DeliverSMID then
    let txt0 := p.ShortMessage
    let txt := if txt0 = [] then p.MessagePayload else txt0
    let text := if p.DataCoding = "8" then utf16bom txt else txt
    some (relayLine p.SourceAddr p.DestinationAddr text)
  else
    none

/-- What createForm does with one form entry. -/
inductive FormAction where
  | fileAttach (path : List Nat)
  | writeField (val : List Nat)
deriving DecidableEq

/-- Per-entry dispatch of createForm (main.go lines 42-63): a value whose
first byte is the marker "@" (byte 64) is treated as a local file path with
the marker stripped and attached as a file part; any other value is written
as a plain form field. -/
def createFormStep (val : List Nat) : FormAction :=
  if val.take 1 = [64] then FormAction.fileAttach (val.drop 1)
  else FormAction.writeField val

/-- Result of reading the HTTP response body in sendMessage. -/
inductive BodyRead where
  | ok (bytes : List Nat)
  | readError
deriving DecidableEq

/-- Outcome of the http.Post call at main.go line 84: either a transport
error (in which case net/http returns a nil response) or a response with a
status code and a body read outcome. -/
inductive PostOutcome where
  | transportError
  | response (status : Nat) (body : BodyRead)
deriving DecidableEq

/-- How a sendMessage invocation ends. -/
inductive RelayOutcome where
  | returned
  | nilDerefPanic
deriving DecidableEq

/-- Control flow of sendMessage (main.go lines 68-105) from the http.Post
call on: line 85 runs `defer resp.Body.Close()` before the error check, and
evaluating resp.Body dereferences resp immediately, so a transport error
(resp nil) panics; every other failure (read error, non-200 status) is only
logged and the function returns. -/
def sendMessage (post : PostOutcome) : RelayOutcome :=
  match post with
  | PostOutcome.transportError => RelayOutcome.nilDerefPanic
  | PostOutcome.response _ _ => RelayOutcome.returned

/-- The one aspect of a net/http client the spec constrains here: its
request timeout in milliseconds, `none` meaning no limit. -/
structure HttpClient where
  RequestTimeout : Option Nat
deriving DecidableEq

/-- net/http DefaultClient: the zero Timeout imposes no limit. -/
def DefaultClient : HttpClient := ⟨none⟩

/-- sendMessage issues its request with http.Post (main.go line 84), which
always uses http.DefaultClient. -/
def sendMessageClient : HttpClient := DefaultClient

/-- Result of tx.Submit as classified by the HTTP handler (main.go lines
183-191): the sentinel smpp.ErrNotConnected, any other error with its
message, or success with a response identifier. -/
inductive SubmitResult where
  | ok (respID : String)
  | notConnected
  | otherError (msg : String)
deriving DecidableEq

/-- An HTTP status and response body. -/
structure HttpResponse where
  status : Nat
  body : String
deriving DecidableEq

/-- net/http http.Error: writes the message followed by a newline. -/
def httpError (msg : String) (code : Nat) : HttpResponse := ⟨code, msg ++ "\n"⟩

/-- The HTTP handler registered at main.go lines 176-192, as a function of
the one tx.Submit result; the first component counts submission attempts
made for the request. -/
def handleSubmitRequest (r : SubmitResult) : Nat × HttpResponse :=
  (1,
    match r with
    | SubmitResult.notConnected => httpError "Oops." 503
    | SubmitResult.otherError m => httpError m 400
    | SubmitResult.ok i => ⟨200, i⟩)

/-- A token-bucket limiter configuration. -/
structure Limiter where
  ratePerSec : Nat
  burst : Nat
deriving DecidableEq

/-- main.go line 161: rate.NewLimiter(rate.Limit(10), 1). -/
def lm : Limiter := ⟨10, 1⟩

/-- The configuration fields the Transceiver construction reads. -/
structure Config where
  Smpp : String
  Username : String
  Password : String

/-- The SMPP Transceiver fields set by main.go. -/
structure Transceiver where
  Addr : String
  User : String
  Passwd : String
  RateLimiter : Limiter

/-- main.go lines 162-168: the single Transceiver, with lm as its rate
limiter; every outbound submission goes through this one object. -/
def tx (cfg : Config) : Transceiver :=
  { Addr := cfg.Smpp, User := cfg.Username, Passwd := cfg.Password,
    RateLimiter := lm }

/-- Feasibility of a list of token-grant completion times (milliseconds, in
completion order) for a token bucket: the k-th completion (0-based) needs
k+1 tokens to have been available by its time, and the bucket holds at most
burst + rate * t / 1000 tokens by time t. -/
def Feasible (l : Limiter) (times : List Nat) : Prop :=
  ∀ k (h : k < times.length),
    k + 1 ≤ l.burst + l.ratePerSec * times.get ⟨k, h⟩ / 1000

/-- Shared shape lemma: on a deliver_sm PDU, f relays the composed line for
the decoded selected text source. -/
theorem f_deliver_eq (p : PduBody) (h : p.ID = DeliverSMID) :
    f p = some (relayLine p.SourceAddr p.DestinationAddr
      (decode p.DataCoding (textSource p))) := by
  unfold f
  rw [if_pos h]
  rfl

/-- C1: on every handled deliver_sm, exactly one decode rule applies to the
selected text source; the short-message field is the source whenever it is
non-empty, regardless of the data-coding value, and the message-payload
TLV is substituted only when it is empty. -/
theorem text_selection (p : PduBody) (h : p.ID = DeliverSMID) :
    (p.ShortMessage ≠ [] → textSource p = p.ShortMessage) ∧
    (p.ShortMessage = [] → textSource p = p.MessagePayload) ∧
    ((p.DataCoding = "8" ∧
        decode p.DataCoding (textSource p) = utf16bom (textSource p)) ∨
     (p.DataCoding ≠ "8" ∧
        decode p.DataCoding (textSource p) = textSource p)) ∧
    f p = some (relayLine p.SourceAddr p.DestinationAddr
      (decode p.DataCoding (textSource p))) := by
  refine ⟨?_, ?_, ?_, f_deliver_eq p h⟩
  · intro hs; simp [textSource, hs]
  · intro hs; simp [textSource, hs]
  · by_cases hc : p.DataCoding = "8"
    · exact Or.inl ⟨hc, by simp [decode, hc]⟩
    · exact Or.inr ⟨hc, by simp [decode, hc]⟩

/-- C1 witness: a deliver_sm with UCS2 coding and non-empty short message
uses the short message, not the payload. -/
theorem text_selection_witness :
    textSource ⟨DeliverSMID, [0x31], [0x32], [0x00, 0x68], [0x69], "8"⟩ =
      [0x00, 0x68] ∧
    f ⟨DeliverSMID, [0x31], [0x32], [0x00, 0x68], [0x69], "8"⟩ =
      some (relayLine [0x31] [0x32]
        (decode "8" (textSource ⟨DeliverSMID, [0x31], [0x32],
          [0x00, 0x68], [0x69], "8"⟩))) :=
  ⟨(text_selection _ rfl).1 (by decide), (text_selection _ rfl).2.2.2⟩

/-- C2: for any data-coding whose string form is not "8" (the absent case
stringifying to the empty string included), decode is the identity on the
bytes. -/
theorem decode_passthrough (coding : String) (b : List Nat)
    (h : coding ≠ "8") : decode coding b = b := by
  simp [decode, h]

/-- C2 witness at coding "0" and arbitrary non-text bytes. -/
theorem decode_passthrough_witness : decode "0" [0, 200, 255] = [0, 200, 255] :=
  decode_passthrough "0" [0, 200, 255] (by decide)

/-- C4: on every handled deliver_sm the relay client receives exactly the
line "SMS from " ++ source ++ " to " ++ destination ++ " :\n" ++ decoded
text. -/
theorem relay_line_shape (p : PduBody) (h : p.ID = DeliverSMID) :
    f p = some (asciiBytes "SMS from " ++ p.SourceAddr ++ asciiBytes " to " ++
      p.DestinationAddr ++ asciiBytes " :\n" ++
      decode p.DataCoding (textSource p)) :=
  f_deliver_eq p h

/-- C4 witness, the spec scenario: coding omitted, short message "hello",
source "12345", destination "999" relays "SMS from 12345 to 999 :\nhello". -/
theorem relay_line_shape_witness :
    f ⟨DeliverSMID, asciiBytes "12345", asciiBytes "999", asciiBytes "hello",
        [], ""⟩ = some (asciiBytes "SMS from 12345 to 999 :\nhello") := by
  rw [relay_line_shape _ rfl]
  decide

/-- C5: every inbound PDU whose header ID is not deliver_sm is ignored: f
relays nothing. -/
theorem ignore_non_deliver (p : PduBody) (h : p.ID ≠ DeliverSMID) :
    f p = none := by
  simp [f, h]

/-- C5 witness: a submit_sm PDU produces no relay call. -/
theorem ignore_non_deliver_witness :
    f ⟨SubmitSMID, [0x31], [0x32], [0x68], [], "0"⟩ = none :=
  ignore_non_deliver _ (by decide)

/-- C8: at the failing input, a transport error from http.Post makes
sendMessage panic on the nil response at the deferred Body.Close instead of
logging and returning. -/
theorem sendMessage_transport_panics :
    sendMessage PostOutcome.transportError = RelayOutcome.nilDerefPanic ∧
    sendMessage (PostOutcome.response 500 BodyRead.readError) =
      RelayOutcome.returned :=
  ⟨rfl, rfl⟩

/-- C9 counterexample: the relay request is issued by http.Post through the
default client, which carries no 10-second request timeout. -/
theorem relay_no_ten_second_timeout :
    sendMessageClient.RequestTimeout ≠ some 10000 := by
  decide

/-- C9 amended: the relay client is the net/http default client and sets no
request timeout at all, so nothing bounds a relay call on a slow remote
endpoint. -/
theorem relay_client_unbounded :
    sendMessageClient = DefaultClient ∧
    sendMessageClient.RequestTimeout = none :=
  ⟨rfl, rfl⟩

/-- C6 counterexample: an "other" submit error is answered with status 400
but the body is the message followed by a newline (appended by http.Error),
not the bare message text. -/
theorem submit_error_body_newline :
    (handleSubmitRequest (SubmitResult.otherError "bad dst")).2.status = 400 ∧
    (handleSubmitRequest (SubmitResult.otherError "bad dst")).2.body ≠
      "bad dst" := by
  constructor
  · rfl
  · decide

/-- C6 amended: per request exactly one submission attempt is made, and the
result maps to: 503 with fixed body "Oops.\n" when not connected, 400 with
the error message plus a trailing newline on any other error, and 200 with
exactly the response identifier on success. -/
theorem submit_http_mapping (r : SubmitResult) :
    (handleSubmitRequest r).1 = 1 ∧
    (r = SubmitResult.notConnected →
      (handleSubmitRequest r).2 = ⟨503, "Oops.\n"⟩) ∧
    (∀ m, r = SubmitResult.otherError m →
      (handleSubmitRequest r).2 = ⟨400, m ++ "\n"⟩) ∧
    (∀ i, r = SubmitResult.ok i → (handleSubmitRequest r).2 = ⟨200, i⟩) := by
  cases r <;>
    simp [handleSubmitRequest, httpError]

/-- C6 witness, the spec scenario: a submission returning identifier "42"
is answered 200 with body "42"; a not-connected error is answered 503. -/
theorem submit_http_mapping_witness :
    (handleSubmitRequest (SubmitResult.ok "42")).2 = ⟨200, "42"⟩ ∧
    (handleSubmitRequest SubmitResult.notConnected).2 = ⟨503, "Oops.\n"⟩ :=
  ⟨(submit_http_mapping (SubmitResult.ok "42")).2.2.2 "42" rfl,
   (submit_http_mapping SubmitResult.notConnected).2.1 rfl⟩

/-- C10: every text handed to the relay by f begins with the fixed bytes of
"SMS from ", so its first byte is never the file marker "@" and createForm
writes it as a plain field; message content can never select the
file-attachment branch. -/
theorem relay_text_no_file (p : PduBody) (m : List Nat) (h : f p = some m) :
    m.take 9 = asciiBytes "SMS from " ∧
    createFormStep m = FormAction.writeField m := by
  by_cases hid : p.ID = DeliverSMID
  · rw [f_deliver_eq p hid] at h
    replace h := Option.some.inj h
    subst h
    have hx : asciiBytes "SMS from " =
        [83, 77, 83, 32, 102, 114, 111, 109, 32] := by decide
    unfold relayLine
    rw [hx]
    constructor
    · simp [List.append_assoc, List.cons_append, List.take]
    · simp [createFormStep, List.append_assoc, List.cons_append, List.take]
  · simp [f, hid] at h

/-- C10 witness at a concrete delivered message. -/
theorem relay_text_no_file_witness :
    List.take 9 (asciiBytes "SMS from 1 to 2 :\nx") = asciiBytes "SMS from " ∧
    createFormStep (asciiBytes "SMS from 1 to 2 :\nx") =
      FormAction.writeField (asciiBytes "SMS from 1 to 2 :\nx") :=
  relay_text_no_file ⟨DeliverSMID, asciiBytes "1", asciiBytes "2",
    asciiBytes "x", [], ""⟩ (asciiBytes "SMS from 1 to 2 :\nx") (by decide)

/-- The UTF-16 code units of a scalar sequence. -/
def unitsOf : List Nat → List Nat
  | [] => []
  | c :: cs =>
    (if c < 0x10000 then [c]
     else [0xD800 + (c - 0x10000) / 0x400, 0xDC00 + (c - 0x10000) % 0x400]) ++
      unitsOf cs

/-- A Unicode scalar value: below 0x110000 and not a surrogate. -/
def ValidScalar (c : Nat) : Prop := c < 0x110000 ∧ (c < 0xD800 ∨ 0xE000 ≤ c)

/-- A text of Unicode scalar values. -/
def ValidText (t : List Nat) : Prop := ∀ c ∈ t, ValidScalar c

instance (c : Nat) : Decidable (ValidScalar c) := by
  unfold ValidScalar
  infer_instance

instance (t : List Nat) : Decidable (ValidText t) := by
  unfold ValidText
  infer_instance

/-- Pairing the bytes of an encoded text recovers its code units with no
dangling byte. -/
theorem pairBytes_encode (le : Bool) (t : List Nat) :
    pairBytes le (utf16Encode le t) = (unitsOf t, false) := by
  induction t with
  | nil => cases le <;> rfl
  | cons c cs ih =>
    by_cases hc : c < 0x10000
    · cases le <;>
        simp only [utf16Encode, unitsOf, if_pos hc, unitBytes, Bool.false_eq_true,
          if_false, if_true, List.cons_append, List.nil_append, pairBytes, ih] <;>
        exact Prod.ext (by simp; omega) rfl
    · cases le <;>
        simp only [utf16Encode, unitsOf, if_neg hc, unitBytes, Bool.false_eq_true,
          if_false, if_true, List.cons_append, List.nil_append, List.append_assoc,
          pairBytes, ih] <;>
        exact Prod.ext (by simp; constructor <;> omega) rfl

/-- Unfolding unitsDecode at a non-surrogate head unit. -/
theorem unitsDecode_cons_plain (u : Nat) (us : List Nat)
    (h1 : ¬(0xD800 ≤ u ∧ u < 0xDC00)) (h2 : ¬(0xDC00 ≤ u ∧ u < 0xE000)) :
    unitsDecode (u :: us) = u :: unitsDecode us := by
  rw [unitsDecode.eq_def]
  simp only [h1, h2, if_false]

/-- Unfolding unitsDecode at a surrogate pair. -/
theorem unitsDecode_cons_pair (u u2 : Nat) (us : List Nat)
    (hh : 0xD800 ≤ u ∧ u < 0xDC00) (hl : 0xDC00 ≤ u2 ∧ u2 < 0xE000) :
    unitsDecode (u :: u2 :: us) =
      ((u - 0xD800) * 0x400 + (u2 - 0xDC00) + 0x10000) :: unitsDecode us := by
  rw [unitsDecode.eq_def]
  simp only [hh, hl, and_self, if_true, if_pos]

/-- Decoding the code units of a valid text recovers the text. -/
theorem unitsDecode_unitsOf (t : List Nat) (h : ValidText t) :
    unitsDecode (unitsOf t) = t := by
  induction t with
  | nil => rfl
  | cons c cs ih =>
    have hc : ValidScalar c := h c (List.mem_cons_self c cs)
    have hcs : ValidText cs := fun x hx => h x (List.mem_cons_of_mem c hx)
    by_cases hlt : c < 0x10000
    · have h1 : ¬(0xD800 ≤ c ∧ c < 0xDC00) := by
        rcases hc with ⟨h1, h2⟩; omega
      have h2 : ¬(0xDC00 ≤ c ∧ c < 0xE000) := by
        rcases hc with ⟨h1, h2⟩; omega
      simp only [unitsOf, if_pos hlt, List.cons_append, List.nil_append]
      rw [unitsDecode_cons_plain c _ h1 h2, ih hcs]
    · have hh : 0xD800 ≤ 0xD800 + (c - 0x10000) / 0x400 ∧
          0xD800 + (c - 0x10000) / 0x400 < 0xDC00 := by
        rcases hc with ⟨h1, h2⟩
        constructor <;> omega
      have hl : 0xDC00 ≤ 0xDC00 + (c - 0x10000) % 0x400 ∧
          0xDC00 + (c - 0x10000) % 0x400 < 0xE000 := by
        constructor <;> omega
      have hcomb : (0xD800 + (c - 0x10000) / 0x400 - 0xD800) * 0x400 +
          (0xDC00 + (c - 0x10000) % 0x400 - 0xDC00) + 0x10000 = c := by
        have hdm := Nat.div_add_mod (c - 0x10000) 0x400
        omega
      simp only [unitsOf, if_neg hlt, List.cons_append, List.nil_append]
      rw [unitsDecode_cons_pair _ _ _ hh hl, hcomb, ih hcs]

/-- The UTF-16 decoder inverts the encoder on valid text. -/
theorem utf16_roundtrip (le : Bool) (t : List Nat) (h : ValidText t) :
    utf16DecodeScalars le (utf16Encode le t) = t := by
  unfold utf16DecodeScalars
  rw [pairBytes_encode le t]
  simp [unitsDecode_unitsOf t h]

/-- A byte sequence beginning with one of the three byte-order marks that
BOMOverride recognises. -/
def StartsWithBOM (b : List Nat) : Prop :=
  b.take 3 = [0xEF, 0xBB, 0xBF] ∨ b.take 2 = [0xFE, 0xFF] ∨
    b.take 2 = [0xFF, 0xFE]

instance (b : List Nat) : Decidable (StartsWithBOM b) := by
  unfold StartsWithBOM
  infer_instance

/-- C3 counterexample: the valid one-character text U+FEFF round-trips to
the empty string, because its mark-free big-endian encoding is itself a
byte-order mark and gets stripped. -/
theorem decode8_roundtrip_cex :
    ValidText [0xFEFF] ∧
    decode "8" (encodeUTF16BE [0xFEFF]) ≠ utf8Encode [0xFEFF] := by
  constructor
  · decide
  · decide

/-- C3 amended: for valid text t whose big-endian encoding does not itself
begin with a recognised byte-order mark, decode under coding "8" returns t;
prepending an explicit big-endian mark, it is stripped and t returned for
every valid t; a little-endian mark is honoured, decoding the rest as
little-endian. -/
theorem decode8_roundtrip (t : List Nat) (h : ValidText t) :
    (¬ StartsWithBOM (encodeUTF16BE t) →
      decode "8" (encodeUTF16BE t) = utf8Encode t) ∧
    decode "8" ([0xFE, 0xFF] ++ encodeUTF16BE t) = utf8Encode t ∧
    decode "8" ([0xFF, 0xFE] ++ encodeUTF16LE t) = utf8Encode t := by
  refine ⟨?_, ?_, ?_⟩
  · intro hb
    rcases not_or.mp hb with ⟨h1, hrest⟩
    rcases not_or.mp hrest with ⟨h2, h3⟩
    unfold decode
    rw [if_pos rfl]
    unfold utf16bom
    rw [if_neg h1, if_neg h2, if_neg h3]
    show utf8Encode (utf16DecodeScalars false (utf16Encode false t)) =
      utf8Encode t
    rw [utf16_roundtrip false t h]
  · unfold decode
    rw [if_pos rfl]
    unfold utf16bom
    have h1 : ([0xFE, 0xFF] ++ encodeUTF16BE t).take 3 ≠ [0xEF, 0xBB, 0xBF] := by
      simp [List.take]
    have h2 : ([0xFE, 0xFF] ++ encodeUTF16BE t).take 2 = [0xFE, 0xFF] := by
      simp [List.take]
    have hd : ([0xFE, 0xFF] ++ encodeUTF16BE t).drop 2 = encodeUTF16BE t := by
      simp
    rw [if_neg h1, if_pos h2, hd]
    show utf8Encode (utf16DecodeScalars false (utf16Encode false t)) =
      utf8Encode t
    rw [utf16_roundtrip false t h]
  · unfold decode
    rw [if_pos rfl]
    unfold utf16bom
    have h1 : ([0xFF, 0xFE] ++ encodeUTF16LE t).take 3 ≠ [0xEF, 0xBB, 0xBF] := by
      simp [List.take]
    have h2 : ([0xFF, 0xFE] ++ encodeUTF16LE t).take 2 ≠ [0xFE, 0xFF] := by
      simp [List.take]
    have h3 : ([0xFF, 0xFE] ++ encodeUTF16LE t).take 2 = [0xFF, 0xFE] := by
      simp [List.take]
    have hd : ([0xFF, 0xFE] ++ encodeUTF16LE t).drop 2 = encodeUTF16LE t := by
      simp
    rw [if_neg h1, if_neg h2, if_pos h3, hd]
    show utf8Encode (utf16DecodeScalars true (utf16Encode true t)) =
      utf8Encode t
    rw [utf16_roundtrip true t h]

/-- C3 witness: a text with an astral character round-trips bare, with an
explicit big-endian mark, and little-endian with its mark. -/
theorem decode8_roundtrip_witness :
    ValidText [0x48, 0x10437] ∧
    decode "8" (encodeUTF16BE [0x48, 0x10437]) = utf8Encode [0x48, 0x10437] ∧
    decode "8" ([0xFE, 0xFF] ++ encodeUTF16BE [0x48, 0x10437]) =
      utf8Encode [0x48, 0x10437] ∧
    decode "8" ([0xFF, 0xFE] ++ encodeUTF16LE [0x48, 0x10437]) =
      utf8Encode [0x48, 0x10437] :=
  ⟨by decide, (decode8_roundtrip _ (by decide)).1 (by decide),
   (decode8_roundtrip _ (by decide)).2.1,
   (decode8_roundtrip _ (by decide)).2.2⟩

/-- C7: the one Transceiver carries the single limiter lm, configured for
10 tokens per second with burst 1, and under token-bucket feasibility any
grant completed within the first 100 ms is one of the first two (at most 1
beyond the initial burst token). -/
theorem rate_limited_submission (cfg : Config) :
    (tx cfg).RateLimiter = lm ∧ lm.ratePerSec = 10 ∧ lm.burst = 1 ∧
    ∀ times : List Nat, Feasible lm times →
      ∀ i (h : i < times.length), times.get ⟨i, h⟩ ≤ 100 → i ≤ 1 := by
  refine ⟨rfl, rfl, rfl, ?_⟩
  intro times hf i h hle
  have hk := hf i h
  have hb : lm.burst = 1 := rfl
  have hr : lm.ratePerSec = 10 := rfl
  rw [hb, hr] at hk
  omega

/-- C7 witness: the schedule granting tokens at 0 ms and 100 ms is
feasible, and its second grant is within the allowed two. -/
theorem rate_limited_submission_witness :
    Feasible lm [0, 100] ∧ (1 : Nat) ≤ 1 := by
  have hf : Feasible lm [0, 100] := by
    intro k h
    simp only [List.length_cons, List.length_nil] at h
    interval_cases k <;> simp [lm, List.get]
  exact ⟨hf,
    (rate_limited_submission ⟨"", "", ""⟩).2.2.2 [0, 100] hf 1 (by decide)
      (by decide)⟩
